import Mathlib

/-!
Verification of the Leadbeam error agent (src/app.py) against its design
specification.  The Python helpers are shallowly embedded as executable Lean
functions over `List Char` / `String`; the Slack handlers are modelled as
functions from their inputs (and an abstract identity-resolution collaborator)
to the list of chat posts they emit.
-/

/-- Python whitespace for `str.strip` and the regex class `\s` (ASCII part). -/
def isPySpace (c : Char) : Bool :=
  c = ' ' || c = '\t' || c = '\n' || c = '\r' || c = '\x0b' || c = '\x0c'

/-- Python `str.strip`: drop whitespace from both ends. -/
def trimChars (l : List Char) : List Char :=
  ((l.dropWhile isPySpace).reverse.dropWhile isPySpace).reverse

/-- Python `str.strip` at the `String` level. -/
def pyStrip (s : String) : String := ⟨trimChars s.data⟩

/-- Python `str.lower` (ASCII, as used on ASCII message text). -/
def pyLower (s : String) : String := ⟨s.data.map Char.toLower⟩

/-- Python `str.replace(xy, r)` for a two-character pattern `xy` and a
one-character replacement: scan left to right, non-overlapping. -/
def rep2 (x y r : Char) : List Char → List Char
  | [] => []
  | [a] => [a]
  | a :: b :: rest =>
    if a = x ∧ b = y then r :: rep2 x y r rest
    else a :: rep2 x y r (b :: rest)

/-- Model of `clean_text` from src/app.py, on the character list: replace literal
backslash-n and backslash-t with a space, drop remaining backslashes and both
quote characters, then strip. -/
def cleanChars (l : List Char) : List Char :=
  trimChars
    ((((rep2 '\\' 'n' ' ' l |> rep2 '\\' 't' ' ').filter (fun c => c != '\\')).filter
        (fun c => c != '"')).filter (fun c => c != '\x27'))

/-- Model of `clean_text` from src/app.py (the TextNormalizer). -/
def clean_text (s : String) : String :=
  if s = "" then "" else ⟨cleanChars s.data⟩

-- ErrorBlockExtractor (parse_error_blocks in src/app.py) --------------------

/-- Drop a literal character sequence from the front; `none` when it does not
match (used to anchor a regex literal at a position). -/
def dropLit : List Char → List Char → Option (List Char)
  | [], l => some l
  | _ :: _, [] => none
  | p :: ps, c :: cs => if c = p then dropLit ps cs else none

/-- Model of `re.search` semantics for the patterns used here: try a deterministic
match attempt at every position, left to right, and return the first hit. -/
def searchFirst {α : Type} (attempt : List Char → Option α) : List Char → Option α
  | [] => attempt []
  | c :: rest =>
    match attempt (c :: rest) with
    | some v => some v
    | none => searchFirst attempt rest

/-- The regex class `\w` (ASCII). -/
def isWordChar (c : Char) : Bool := c.isAlphanum || c = '_'

/-- The regex class `[\w\.-]` of the email pattern. -/
def isEmailChar (c : Char) : Bool := isWordChar c || c = '.' || c = '-'

/-- One match attempt of the pattern `[\w\.-]+@[\w\.-]+` anchored at the start
of `l`.  Both runs are greedy; since `@` is not in the class, the maximal run
is the only possible one, so this is exactly the regex semantics. -/
def emailAt (l : List Char) : Option (List Char) :=
  let run1 := l.takeWhile isEmailChar
  if run1.isEmpty then none
  else
    match l.drop run1.length with
    | '@' :: rest =>
      let run2 := rest.takeWhile isEmailChar
      if run2.isEmpty then none else some (run1 ++ '@' :: run2)
    | _ => none

/-- One match attempt of `Error code\s*=\s*(\d+)` anchored at the start of
`l`; returns the captured digit group. -/
def codeAt (l : List Char) : Option (List Char) :=
  match dropLit "Error code".data l with
  | none => none
  | some rest =>
    match rest.dropWhile isPySpace with
    | '=' :: r2 =>
      let ds := (r2.dropWhile isPySpace).takeWhile Char.isDigit
      if ds.isEmpty then none else some ds
    | _ => none

/-- The literal key of the message pattern: an apostrophe, `message`, an
apostrophe, then a colon. -/
def msgKey : List Char := '\x27' :: ("message".data ++ ['\x27', ':'])

/-- Continue the lazy group `(.+?)` of the message pattern: stop (success) at
the first quote character, fail on a newline (`.` does not match it) or at the
end of input. -/
def grabBody (acc : List Char) : List Char → Option (List Char)
  | [] => none
  | c :: rest =>
    if c = '\x27' ∨ c = '"' then some acc.reverse
    else if c = '\n' then none
    else grabBody (c :: acc) rest

/-- Start the lazy group `(.+?)`: its first character is always consumed (even
a quote), and must not be a newline. -/
def msgStart : List Char → Option (List Char)
  | [] => none
  | c :: rest => if c = '\n' then none else grabBody [c] rest

/-- One match attempt of the message pattern anchored at the start of `l`;
returns the captured group. -/
def messageAt (l : List Char) : Option (List Char) :=
  match dropLit msgKey l with
  | none => none
  | some rest =>
    match rest.dropWhile isPySpace with
    | q :: r2 => if q = '\x27' ∨ q = '"' then msgStart r2 else none
    | [] => none

/-- The parsed error dict appended by `parse_error_blocks`. -/
structure ErrorRecord where
  email : String
  code : String
  message : String
deriving DecidableEq

/-- Python `full_text.split("URL:")`: non-overlapping, left to right. -/
def splitURL : List Char → List Char → List (List Char)
  | [], acc => [acc.reverse]
  | 'U' :: 'R' :: 'L' :: ':' :: rem, acc => acc.reverse :: splitURL rem []
  | c :: rest, acc => splitURL rest (c :: acc)

/-- Model of `blocks[1:]` — the candidate error blocks of a message. -/
def candidateBlocks (t : String) : List (List Char) := (splitURL t.data []).drop 1

/-- Model of `"URL:" + block.strip()` — the reassembled text a candidate is matched
against. -/
def blockText (b : List Char) : List Char := 'U' :: 'R' :: 'L' :: ':' :: trimChars b

/-- The per-block body of the loop in `parse_error_blocks`: extract email,
code and message, then apply the acceptance test. -/
def parseBlock (b : List Char) : Option ErrorRecord :=
  let text := blockText b
  match searchFirst emailAt text, searchFirst codeAt text, searchFirst messageAt text with
  | some e, some c, some m0 =>
    let m := trimChars m0
    if (String.mk c = "400" ∨ String.mk c = "409") ∧ m ≠ [] then
      some ⟨String.mk e, String.mk c, String.mk m⟩
    else none
  | _, _, _ => none

/-- Model of `parse_error_blocks` from src/app.py. -/
def parse_error_blocks (full_text : String) : List ErrorRecord :=
  (candidateBlocks full_text).filterMap parseBlock

/-- An email-like token is present in the block (first acceptance condition). -/
def emailFoundB (b : List Char) : Bool := (searchFirst emailAt (blockText b)).isSome

/-- The extracted code is "400" or "409" (second acceptance condition). -/
def codeOkB (b : List Char) : Bool :=
  match searchFirst codeAt (blockText b) with
  | some c => String.mk c == "400" || String.mk c == "409"
  | none => false

/-- A message is present and non-empty after stripping (third acceptance
condition). -/
def msgOkB (b : List Char) : Bool :=
  match searchFirst messageAt (blockText b) with
  | some m0 => trimChars m0 != []
  | none => false

-- DraftComposer (draft_fix_message / call_openai_summary in src/app.py) -----

/-- Python `needle in hay` membership helper. -/
def hasSub (needle : List Char) : List Char → Bool
  | [] => (dropLit needle []).isSome
  | c :: rest => (dropLit needle (c :: rest)).isSome || hasSub needle rest

/-- Python `needle in hay` for strings. -/
def pyIn (needle hay : String) : Bool := hasSub needle.data hay.data

/-- The f-string prompt built by `call_openai_summary`. -/
def mkPrompt (cleaned : String) : String :=
  "\n    Summarize this Salesforce error message for a support engineer.\n    Explain in plain English what went wrong and how the user can fix it.\n\n    Error message:\n    " ++ cleaned ++ "\n    "

/-- Model of `call_openai_summary` from src/app.py.  The external OpenAI call is
abstracted as `oracle`: `.ok` is a successful completion (whose content the
code strips), `.error` models a raised exception caught by the handler. -/
def call_openai_summary (oracle : String → Except String String)
    (raw_message : String) : String :=
  let cleaned := clean_text raw_message
  if cleaned = "" ∨ cleaned.length < 10 then
    "Could not extract a valid Salesforce error message."
  else
    match oracle (mkPrompt cleaned) with
    | .ok content => pyStrip content
    | .error e => "Could not summarize error: " ++ e

/-- Model of `draft_fix_message` from src/app.py: the heuristic ladder with the
summarizer fallback. -/
def draft_fix_message (oracle : String → Except String String)
    (email message : String) : String :=
  let msgLower := pyLower message
  let suggestion :=
    if pyIn "already exists" msgLower then
      "Please check Salesforce — a record with this data already exists."
    else if pyIn "must be" msgLower || pyIn "validation" msgLower then
      "Please correct this field: " ++ message
    else if pyIn "not found" msgLower then
      "The requested Salesforce record doesn’t exist."
    else call_openai_summary oracle message
  "Hi " ++ email ++ ", " ++ suggestion

/-- A concrete always-failing summarizer used in concrete evaluations. -/
def dummyOracle : String → Except String String :=
  fun _ => Except.error "summarizer unavailable"

-- Slack handler models ------------------------------------------------------

/-- The greeting set short-circuited by `handle_message_events`. -/
def greetings : List String := ["hi", "hello", "hey"]

/-- The records processed by `handle_message_events` for one inbound message:
empty when the message is ignored (empty text or bot message) or
short-circuited (greeting), otherwise the result of `parse_error_blocks`
applied to the raw text. -/
def handle_message_records (text : String) (hasBotId : Bool) : List ErrorRecord :=
  if text = "" ∨ hasBotId then []
  else if pyStrip (pyLower text) ∈ greetings then []
  else parse_error_blocks text

/-- One `chat_postMessage` call: target channel and message text. -/
structure ChatPost where
  channel : String
  text : String
deriving DecidableEq

/-- Text of the delivery-success report sent to the approver. -/
def successReport (email : String) : String :=
  "✅ Message sent to Slack user (" ++ email ++ ")"

/-- Text of the identity-resolution-failure report sent to the approver,
carrying the underlying error. -/
def failureReport (email e : String) : String :=
  "⚠️ Could not find Slack user for " ++ email ++ ". Please send manually.\nError: " ++ e

/-- Text of the rejection notice sent to the approver. -/
def rejectReport : String := "🚫 Message rejected. No action taken."

/-- The posts emitted by the `approve_fix` action handler for a payload with
the given email and draft.  `users_lookupByEmail` is abstracted as `lookup`:
`.ok` resolves to a user id, `.error` models the raised Slack API error. -/
def approve_fix (lookup : String → Except String String)
    (approverId email draft : String) : List ChatPost :=
  match lookup email with
  | .ok userId => [⟨userId, draft⟩, ⟨approverId, successReport email⟩]
  | .error e => [⟨approverId, failureReport email e⟩]

/-- The posts emitted by the `reject_fix` action handler. -/
def reject_fix (approverId : String) : List ChatPost := [⟨approverId, rejectReport⟩]

/-- The channels that receive the approval prompt: each configured, truthy
entry of `[APPROVER_ID, SECOND_APPROVER_ID]`. -/
def prompt_channels (a1 a2 : Option String) : List String :=
  [a1, a2].filterMap fun o =>
    match o with
    | some s => if s = "" then none else some s
    | none => none

-- Interactive button payloads (C5) ------------------------------------------

/-- One interactive button of the approval prompt. -/
structure ActionButton where
  action_id : String
  value : String
deriving DecidableEq

/-- JSON string-content escaping as performed by `json.dumps` on the
characters relevant here (backslash and double quote). -/
def jsonEscape : List Char → List Char
  | [] => []
  | c :: rest =>
    if c = '\\' then '\\' :: '\\' :: jsonEscape rest
    else if c = '"' then '\\' :: '"' :: jsonEscape rest
    else c :: jsonEscape rest

/-- Leading literal chunk of the serialized payload dict. -/
def jOpen : List Char := ("\x7b\"email\": \"").data

/-- Literal between the email and code values. -/
def jCode : List Char := (", \"code\": \"").data

/-- Literal between the code and message values. -/
def jMsg : List Char := (", \"message\": \"").data

/-- Literal between the message and draft values. -/
def jDraft : List Char := (", \"draft\": \"").data

/-- Serialized payload of `json.dumps` over the record dict extended with the
draft, as a character list. -/
def payloadChars (r : ErrorRecord) (draft : String) : List Char :=
  jOpen ++ (jsonEscape r.email.data ++ '"' ::
    (jCode ++ (jsonEscape r.code.data ++ '"' ::
      (jMsg ++ (jsonEscape r.message.data ++ '"' ::
        (jDraft ++ (jsonEscape draft.data ++ '"' :: ['\x7d'])))))))

/-- The serialized value blob attached to a button. -/
def dumpsPayload (r : ErrorRecord) (draft : String) : String := ⟨payloadChars r draft⟩

/-- The three interactive buttons attached to one approval prompt, in source
order: approve, edit, reject. -/
def promptButtons (r : ErrorRecord) (draft : String) : List ActionButton :=
  [⟨"approve_fix", dumpsPayload r draft⟩,
   ⟨"edit_fix", dumpsPayload r draft⟩,
   ⟨"reject_fix", "reject"⟩]

/-- Read one JSON string value up to its closing quote, undoing the escaping. -/
def readJString (acc : List Char) : List Char → Option (List Char × List Char)
  | [] => none
  | c :: rest =>
    if c = '\\' then
      match rest with
      | [] => none
      | c2 :: rest2 => readJString (c2 :: acc) rest2
    else if c = '"' then some (acc.reverse, rest)
    else readJString (c :: acc) rest

/-- Decode a serialized payload back into the record and draft (`json.loads`
restricted to the exact shape produced by the prompt builder). -/
def parsePayload (s : String) : Option (ErrorRecord × String) :=
  match dropLit jOpen s.data with
  | none => none
  | some r1 =>
  match readJString [] r1 with
  | none => none
  | some (e, r2) =>
  match dropLit jCode r2 with
  | none => none
  | some r3 =>
  match readJString [] r3 with
  | none => none
  | some (c, r4) =>
  match dropLit jMsg r4 with
  | none => none
  | some r5 =>
  match readJString [] r5 with
  | none => none
  | some (m, r6) =>
  match dropLit jDraft r6 with
  | none => none
  | some r7 =>
  match readJString [] r7 with
  | none => none
  | some (d, r8) =>
  if r8 = ['\x7d'] then some (⟨⟨e⟩, ⟨c⟩, ⟨m⟩⟩, ⟨d⟩) else none


-- Concrete inputs used in witnesses and counterexamples ----------------------

/-- A raw inbound message with one valid error block (quoted message, email
present). -/
def t1 : String := "URL:x Error code = 400 \x27message\x27: \x27already exists\x27 a@b.com"

/-- The Scenario 1 input, with the email a@b.com present in the block. -/
def t2 : String := "URL:/x Error code = 400 \x27message\x27: \x27already exists\x27 a@b.com"

/-- The candidate block of `t2` (what follows the "URL:" delimiter). -/
def b2 : List Char := "/x Error code = 400 \x27message\x27: \x27already exists\x27 a@b.com".data

/-- A candidate block whose URL contains an address-like token before the end
user address. -/
def c10block : List Char :=
  "/u/x@y.com?to=real@user.com Error code = 400 \x27message\x27: \x27boom\x27".data

/-- A concrete identity resolver that always fails. -/
def lookupFail : String → Except String String :=
  fun _ => Except.error "users_not_found"

/-- A concrete identity resolver that always resolves to user U9. -/
def lookupOkU9 : String → Except String String :=
  fun _ => Except.ok "U9"

/-- A concrete record for payload evaluations. -/
def r0 : ErrorRecord := ⟨"a@b.com", "400", "boom"⟩

-- Helper lemmas --------------------------------------------------------------


theorem dropWhile_idem (p : Char → Bool) (l : List Char) :
    (l.dropWhile p).dropWhile p = l.dropWhile p := by
  induction l with
  | nil => rfl
  | cons a t ih =>
    by_cases h : p a = true
    · simp [List.dropWhile_cons, h, ih]
    · simp [List.dropWhile_cons, h]

theorem dropWhile_head_false (p : Char → Bool) :
    ∀ (l : List Char) (b : Char) (bs : List Char),
      l.dropWhile p = b :: bs → p b = false := by
  intro l
  induction l with
  | nil => intro b bs h; simp [List.dropWhile] at h
  | cons a t ih =>
    intro b bs h
    by_cases ha : p a = true
    · rw [List.dropWhile_cons, if_pos ha] at h
      exact ih b bs h
    · rw [List.dropWhile_cons, if_neg ha] at h
      cases h
      simp only [Bool.not_eq_true] at ha
      exact ha

theorem dropWhile_eq_self_of_head_false (p : Char → Bool) (b : Char)
    (bs : List Char) (hb : p b = false) :
    (b :: bs).dropWhile p = b :: bs := by
  simp [List.dropWhile_cons, hb]

theorem mem_dropWhile (p : Char → Bool) :
    ∀ (l : List Char) (a : Char), a ∈ l.dropWhile p → a ∈ l := by
  intro l
  induction l with
  | nil => intro a h; simp [List.dropWhile] at h
  | cons c t ih =>
    intro a h
    by_cases hc : p c = true
    · rw [List.dropWhile_cons, if_pos hc] at h
      exact List.mem_cons_of_mem c (ih a h)
    · rw [List.dropWhile_cons, if_neg hc] at h
      exact h

theorem mem_trimChars (l : List Char) (a : Char) (h : a ∈ trimChars l) :
    a ∈ l := by
  unfold trimChars at h
  rw [List.mem_reverse] at h
  have h1 := mem_dropWhile isPySpace _ a h
  rw [List.mem_reverse] at h1
  exact mem_dropWhile isPySpace l a h1

theorem trimChars_idem (l : List Char) : trimChars (trimChars l) = trimChars l := by
  unfold trimChars
  set A := l.dropWhile isPySpace with hA
  have hAidem : A.dropWhile isPySpace = A := dropWhile_idem isPySpace l
  set B := A.reverse.dropWhile isPySpace with hB
  -- `B.reverse` is a prefix of `A`, hence has no leading whitespace.
  have hdecomp : A = B.reverse ++ (A.reverse.takeWhile isPySpace).reverse := by
    conv_lhs => rw [← List.reverse_reverse A,
      ← List.takeWhile_append_dropWhile (p := isPySpace) (l := A.reverse)]
    rw [List.reverse_append]
  have hBdrop : B.reverse.dropWhile isPySpace = B.reverse := by
    cases hBr : B.reverse with
    | nil => rfl
    | cons b bs =>
      have hAcons : A = b :: (bs ++ (A.reverse.takeWhile isPySpace).reverse) := by
        conv_lhs => rw [hdecomp, hBr]
        exact List.cons_append b bs _
      have hpb : isPySpace b = false := by
        apply dropWhile_head_false isPySpace l b
          (bs ++ (A.reverse.takeWhile isPySpace).reverse)
        exact hAcons
      exact dropWhile_eq_self_of_head_false isPySpace b bs hpb
  rw [hBdrop, List.reverse_reverse]
  have : B.dropWhile isPySpace = B := by
    rw [hB, dropWhile_idem]
  rw [this]

theorem rep2_of_not_mem (x y r : Char) :
    ∀ (l : List Char), x ∉ l → rep2 x y r l = l := by
  intro l
  induction l with
  | nil => intro _; rfl
  | cons a t ih =>
    intro h
    have ha : a ≠ x := fun e => h (e ▸ List.mem_cons_self a t)
    cases t with
    | nil => rfl
    | cons b rest =>
      have hxt : x ∉ b :: rest := fun hm => h (List.mem_cons_of_mem a hm)
      have hcond : ¬(a = x ∧ b = y) := fun hc => ha hc.1
      rw [rep2, if_neg hcond, ih hxt]

theorem filter_id_of_all (p : Char → Bool) :
    ∀ (l : List Char), (∀ a ∈ l, p a = true) → l.filter p = l := by
  intro l
  induction l with
  | nil => intro _; rfl
  | cons a t ih =>
    intro h
    rw [List.filter_cons, if_pos (h a (List.mem_cons_self a t)),
      ih fun b hb => h b (List.mem_cons_of_mem a hb)]

theorem cleanChars_idem (l : List Char) :
    cleanChars (cleanChars l) = cleanChars l := by
  have hform : cleanChars l =
      trimChars
        ((((rep2 '\\' 'n' ' ' l |> rep2 '\\' 't' ' ').filter
              (fun c => c != '\\')).filter (fun c => c != '"')).filter
          (fun c => c != '\x27')) := rfl
  -- the output of `cleanChars` contains no backslash and no quote characters
  have hmem : ∀ a ∈ cleanChars l, (a != '\\') = true ∧ (a != '"') = true ∧
      (a != '\x27') = true := by
    intro a ha
    rw [hform] at ha
    have h3 := mem_trimChars _ a ha
    have hq3 := (List.mem_filter.mp h3).2
    have h2 := List.mem_of_mem_filter h3
    have hq2 := (List.mem_filter.mp h2).2
    have h1 := List.mem_of_mem_filter h2
    have hq1 := (List.mem_filter.mp h1).2
    exact ⟨hq1, hq2, hq3⟩
  have hnb : '\\' ∉ cleanChars l := fun hm => by simp at hmem; exact (hmem '\\' hm).1 rfl
  have hb : ∀ a ∈ cleanChars l, (a != '\\') = true := fun a ha => (hmem a ha).1
  have hq : ∀ a ∈ cleanChars l, (a != '"') = true := fun a ha => (hmem a ha).2.1
  have hap : ∀ a ∈ cleanChars l, (a != '\x27') = true := fun a ha => (hmem a ha).2.2
  show trimChars
      ((((rep2 '\\' 'n' ' ' (cleanChars l) |> rep2 '\\' 't' ' ').filter
            (fun c => c != '\\')).filter (fun c => c != '"')).filter
        (fun c => c != '\x27')) = cleanChars l
  rw [rep2_of_not_mem _ _ _ _ hnb, rep2_of_not_mem _ _ _ _ hnb,
    filter_id_of_all _ _ hb, filter_id_of_all _ _ hq, filter_id_of_all _ _ hap]
  conv_lhs => rw [hform]
  rw [trimChars_idem]
  exact hform.symm

theorem data_mk (l : List Char) : (String.mk l).data = l := rfl

theorem searchFirst_inv {α : Type} (attempt : List Char → Option α) :
    ∀ (l : List Char) (v : α), searchFirst attempt l = some v →
      ∃ l2, attempt l2 = some v := by
  intro l
  induction l with
  | nil => intro v h; exact ⟨[], h⟩
  | cons c rest ih =>
    intro v h
    rw [searchFirst] at h
    cases ha : attempt (c :: rest) with
    | some w =>
      rw [ha] at h
      exact ⟨c :: rest, ha.trans h⟩
    | none =>
      rw [ha] at h
      exact ih v h

theorem emailAt_ne_nil (l : List Char) (v : List Char) (h : emailAt l = some v) :
    v ≠ [] := by
  unfold emailAt at h
  dsimp only [] at h
  split at h
  · cases h
  · split at h
    · split at h
      · cases h
      · intro hnil
        have hv := Option.some.inj h
        rw [hnil] at hv
        simp at hv
    · cases h

theorem parseBlock_some_iff (b : List Char) :
    (∃ r, parseBlock b = some r) ↔
      emailFoundB b = true ∧ codeOkB b = true ∧ msgOkB b = true := by
  unfold parseBlock emailFoundB codeOkB msgOkB
  rcases hE : searchFirst emailAt (blockText b) with _ | e <;>
    rcases hC : searchFirst codeAt (blockText b) with _ | c <;>
      rcases hM : searchFirst messageAt (blockText b) with _ | m0 <;>
        simp [hE, hC, hM]

theorem parse_records_invariant (t : String) :
    ∀ r ∈ parse_error_blocks t,
      (r.code = "400" ∨ r.code = "409") ∧ r.email ≠ "" ∧ r.message ≠ "" := by
  intro r hr
  unfold parse_error_blocks at hr
  rw [List.mem_filterMap] at hr
  obtain ⟨b, _hb, hpb⟩ := hr
  rcases hE : searchFirst emailAt (blockText b) with _ | e <;>
    rcases hC : searchFirst codeAt (blockText b) with _ | c <;>
      rcases hM : searchFirst messageAt (blockText b) with _ | m0 <;>
        simp [parseBlock, hE, hC, hM] at hpb
  obtain ⟨⟨hcode, hmne⟩, hrec⟩ := hpb
  subst hrec
  refine ⟨hcode, ?_, ?_⟩
  · obtain ⟨l2, hat⟩ := searchFirst_inv emailAt (blockText b) e hE
    exact fun hc => (emailAt_ne_nil l2 e hat) (congrArg String.data hc)
  · exact fun hc => hmne (congrArg String.data hc)

theorem dropLit_append : ∀ (p l : List Char), dropLit p (p ++ l) = some l := by
  intro p
  induction p with
  | nil => intro l; rfl
  | cons a ps ih => intro l; simp [dropLit, ih]

theorem readJString_esc (acc : List Char) (c2 : Char) (rest2 : List Char) :
    readJString acc ('\\' :: c2 :: rest2) = readJString (c2 :: acc) rest2 := by
  rw [readJString.eq_def]
  dsimp only
  rw [if_pos rfl]

theorem readJString_close (acc rest : List Char) :
    readJString acc ('"' :: rest) = some (acc.reverse, rest) := by
  rw [readJString.eq_def]
  dsimp only
  rw [if_neg (by decide : ¬('"' : Char) = '\\'), if_pos rfl]

theorem readJString_other (acc : List Char) (c : Char) (rest : List Char)
    (hb : ¬c = '\\') (hq : ¬c = '"') :
    readJString acc (c :: rest) = readJString (c :: acc) rest := by
  rw [readJString.eq_def]
  dsimp only
  rw [if_neg hb, if_neg hq]

theorem jsonEscape_esc (cs : List Char) :
    jsonEscape ('\\' :: cs) = '\\' :: '\\' :: jsonEscape cs := by
  rw [jsonEscape.eq_def]
  dsimp only
  rw [if_pos rfl]

theorem jsonEscape_quote (cs : List Char) :
    jsonEscape ('"' :: cs) = '\\' :: '"' :: jsonEscape cs := by
  rw [jsonEscape.eq_def]
  dsimp only
  rw [if_neg (by decide : ¬('"' : Char) = '\\'), if_pos rfl]

theorem jsonEscape_other (c : Char) (cs : List Char)
    (hb : ¬c = '\\') (hq : ¬c = '"') :
    jsonEscape (c :: cs) = c :: jsonEscape cs := by
  rw [jsonEscape.eq_def]
  dsimp only
  rw [if_neg hb, if_neg hq]

theorem readJString_round :
    ∀ (s acc rest : List Char),
      readJString acc (jsonEscape s ++ '"' :: rest) = some (acc.reverse ++ s, rest) := by
  intro s
  induction s with
  | nil =>
    intro acc rest
    show readJString acc (jsonEscape [] ++ '"' :: rest) = some (acc.reverse ++ [], rest)
    rw [show jsonEscape [] = [] from rfl, List.nil_append, readJString_close,
      List.append_nil]
  | cons c cs ih =>
    intro acc rest
    by_cases hb : c = '\\'
    · subst hb
      rw [jsonEscape_esc, List.cons_append, List.cons_append, readJString_esc, ih]
      simp
    · by_cases hq : c = '"'
      · subst hq
        rw [jsonEscape_quote, List.cons_append, List.cons_append, readJString_esc, ih]
        simp
      · rw [jsonEscape_other c cs hb hq, List.cons_append,
          readJString_other acc c _ hb hq, ih]
        simp

theorem parsePayload_dumps (r : ErrorRecord) (d : String) :
    parsePayload (dumpsPayload r d) = some (r, d) := by
  unfold parsePayload dumpsPayload payloadChars
  simp only [data_mk, dropLit_append, readJString_round, List.reverse_nil,
    List.nil_append]
  rfl

-- Claim theorems -------------------------------------------------------------

/-- Claim C8. For every string s, normalize(normalize(s)) = normalize(s): the
TextNormalizer `clean_text` is idempotent.  The first pass removes every
backslash and quote character and strips the ends, so the second pass finds
nothing to replace and nothing further to strip. -/
theorem C8_normalizer_idempotent :
    ∀ s : String, clean_text (clean_text s) = clean_text s := by
  intro s
  by_cases hs : s = ""
  · subst hs; rfl
  · have h1 : clean_text s = ⟨cleanChars s.data⟩ := by
      unfold clean_text; rw [if_neg hs]
    rw [h1]
    unfold clean_text
    by_cases h2 : (⟨cleanChars s.data⟩ : String) = ""
    · rw [if_pos h2]; exact h2.symm
    · rw [if_neg h2]
      exact congrArg String.mk (cleanChars_idem s.data)

/-- Claim C1, counterexample. The spec claims the records processed for a
message with raw text t are exactly extract(normalize(t)).  On the concrete,
non-ignored, non-short-circuited message `t1` the handler processes a record
(the extractor runs on the raw text, where the quoted message pattern still
matches), while extract(normalize(t1)) is empty because normalization strips
the quotes the message regex requires. -/
theorem C1_cex_normalize_then_extract :
    (t1 ≠ "" ∧ pyStrip (pyLower t1) ∉ greetings ∧
      handle_message_records t1 false ≠ []) ∧
    handle_message_records t1 false ≠ parse_error_blocks (clean_text t1) := by
  refine ⟨⟨by decide, by decide, by decide⟩, by decide⟩

/-- Claim C1, amended. For every inbound message that is not ignored (empty
text or bot message) and not short-circuited (greeting), the records
processed are exactly extract(t) applied to the raw message text: the
TextNormalizer is not applied to the inbound text before extraction (it is
applied only inside the summarizer fallback). -/
theorem C1_extractor_receives_raw_text (text : String) (hasBotId : Bool)
    (h1 : text ≠ "") (h2 : hasBotId = false)
    (h3 : pyStrip (pyLower text) ∉ greetings) :
    handle_message_records text hasBotId = parse_error_blocks text := by
  subst h2
  simp [handle_message_records, h1, h3]

/-- Witness for C1 (amended) at the concrete message `t1`. -/
theorem C1_witness :
    t1 ≠ "" ∧ handle_message_records t1 false = parse_error_blocks t1 :=
  ⟨by decide, C1_extractor_receives_raw_text t1 false (by decide) rfl (by decide)⟩

/-- Claim C2, counterexample. Extraction on the Scenario 1 input yields exactly
the claimed record, but the composed draft body is not
"Hi a@b.com, a record with this data already exists.": the code prefixes the
suggestion with "Please check Salesforce — ". -/
theorem C2_cex_draft_body :
    parse_error_blocks t2 = [⟨"a@b.com", "400", "already exists"⟩] ∧
    draft_fix_message dummyOracle "a@b.com" "already exists" ≠
      "Hi a@b.com, a record with this data already exists." := by
  refine ⟨by decide, by decide⟩

/-- Claim C2, amended. Scenario 1: the input yields exactly the record
(email a@b.com, code 400, message already exists), and composing it (for
any summarizer, which is not consulted on this branch) yields the draft body
"Hi a@b.com, Please check Salesforce — a record with this data already
exists.". -/
theorem C2_scenario1 :
    parse_error_blocks t2 = [⟨"a@b.com", "400", "already exists"⟩] ∧
    ∀ oracle, draft_fix_message oracle "a@b.com" "already exists" =
      "Hi a@b.com, Please check Salesforce — a record with this data already exists." := by
  refine ⟨by decide, fun oracle => ?_⟩
  rfl

/-- Claim C5, counterexample. The spec claims all three affordances carry a
value that round-trips the record plus draft; the value of the reject button is
the fixed string "reject", which decodes to no record at all. -/
theorem C5_cex_reject_value :
    ((promptButtons r0 "Hi a@b.com").map ActionButton.value).getD 2 "" = "reject" ∧
    parsePayload "reject" = none := by
  refine ⟨rfl, by decide⟩

/-- Claim C5, amended. The approve and edit affordances each carry the
serialized record plus composed draft body, and that value round-trips to the
full ErrorRecord and draft; the reject affordance instead carries the fixed
opaque value "reject". -/
theorem C5_payload_roundtrip :
    ∀ (r : ErrorRecord) (draft : String),
      (promptButtons r draft).map ActionButton.value =
        [dumpsPayload r draft, dumpsPayload r draft, "reject"] ∧
      parsePayload (dumpsPayload r draft) = some (r, draft) :=
  fun r draft => ⟨rfl, parsePayload_dumps r draft⟩

/-- Claim C3. For every input string and every candidate block obtained by
splitting on "URL:" (discarding the leading segment), extraction produces a
record for the block iff an email-like token is present, the extracted code
is "400" or "409", and a non-empty (after stripping) message is present; and
every record in the returned sequence has code exactly "400" or "409" and
non-empty email and message.  A failing candidate contributes nothing (the
functions are total, so no error is possible). -/
theorem C3_acceptance_policy (t : String) (b : List Char)
    (_hb : b ∈ candidateBlocks t) :
    ((∃ r, parseBlock b = some r) ↔
      emailFoundB b = true ∧ codeOkB b = true ∧ msgOkB b = true) ∧
    ∀ r ∈ parse_error_blocks t,
      (r.code = "400" ∨ r.code = "409") ∧ r.email ≠ "" ∧ r.message ≠ "" :=
  ⟨parseBlock_some_iff b, parse_records_invariant t⟩

/-- Witness for C3 at the candidate block of the concrete message `t2`. -/
theorem C3_witness :
    b2 ∈ candidateBlocks t2 ∧
    ((∃ r, parseBlock b2 = some r) ↔
      emailFoundB b2 = true ∧ codeOkB b2 = true ∧ msgOkB b2 = true) :=
  ⟨by decide, (C3_acceptance_policy t2 b2 (by decide)).1⟩

/-- Claim C10. For every candidate block, the email of the accepted record is the
first match of the email pattern over the entire reassembled block (the
"URL:" prefix and stripped block); in particular, on the concrete block
`c10block`, whose URL contains the address-like token x@y.com before the end
user address real@user.com, the extracted record carries the token from the
URL. -/
theorem C10_email_is_first_match :
    (∀ (b : List Char) (r : ErrorRecord), parseBlock b = some r →
      searchFirst emailAt (blockText b) = some r.email.data) ∧
    parseBlock c10block = some ⟨"x@y.com", "400", "boom"⟩ := by
  constructor
  · intro b r h
    rcases hE : searchFirst emailAt (blockText b) with _ | e <;>
      rcases hC : searchFirst codeAt (blockText b) with _ | c <;>
        rcases hM : searchFirst messageAt (blockText b) with _ | m0 <;>
          simp [parseBlock, hE, hC, hM] at h
    obtain ⟨_, hrec⟩ := h
    subst hrec
    rfl
  · decide

/-- Witness for C10: applying the general part at the concrete block. -/
theorem C10_witness :
    parseBlock c10block = some ⟨"x@y.com", "400", "boom"⟩ ∧
    searchFirst emailAt (blockText c10block) = some "x@y.com".data :=
  ⟨C10_email_is_first_match.2,
    C10_email_is_first_match.1 c10block ⟨"x@y.com", "400", "boom"⟩
      C10_email_is_first_match.2⟩

/-- Claim C4. For every approve callback whose record email fails identity
resolution with error e, the handler posts exactly one message: a failure
report to the approver containing the underlying error e; no delivery is
made to any other channel and no further action is taken. -/
theorem C4_resolution_failure (lookup : String → Except String String)
    (approverId email draft e : String)
    (h : lookup email = Except.error e) :
    approve_fix lookup approverId email draft =
      [⟨approverId, failureReport email e⟩] ∧
    (∃ txt, failureReport email e = txt ++ e) ∧
    ∀ p ∈ approve_fix lookup approverId email draft, p.channel = approverId := by
  have hfix : approve_fix lookup approverId email draft =
      [⟨approverId, failureReport email e⟩] := by
    unfold approve_fix
    rw [h]
  refine ⟨hfix, ⟨"⚠️ Could not find Slack user for " ++ email ++
    ". Please send manually.\nError: ", rfl⟩, ?_⟩
  intro p hp
  rw [hfix] at hp
  rw [List.mem_singleton] at hp
  rw [hp]

/-- Witness for C4 with the concrete always-failing resolver. -/
theorem C4_witness :
    lookupFail "a@b.com" = Except.error "users_not_found" ∧
    approve_fix lookupFail "U1" "a@b.com" "Hi a@b.com" =
      [⟨"U1", failureReport "a@b.com" "users_not_found"⟩] :=
  ⟨rfl, (C4_resolution_failure lookupFail "U1" "a@b.com" "Hi a@b.com"
    "users_not_found" rfl).1⟩

/-- Claim C9. When a second approver identity is configured (both non-empty),
the approval prompt goes to both configured approvers, while every outcome
notification — the delivery-success report, the resolution-failure report and
the rejection notice — is posted to the first approver identity only (so a
distinct second approver receives no outcome report). -/
theorem C9_outcomes_only_to_first_approver (s1 s2 : String)
    (lookupOk lookupErr : String → Except String String)
    (email draft uid e : String)
    (h1 : s1 ≠ "") (h2 : s2 ≠ "")
    (hok : lookupOk email = Except.ok uid)
    (herr : lookupErr email = Except.error e) :
    prompt_channels (some s1) (some s2) = [s1, s2] ∧
    approve_fix lookupOk s1 email draft =
      [⟨uid, draft⟩, ⟨s1, successReport email⟩] ∧
    approve_fix lookupErr s1 email draft = [⟨s1, failureReport email e⟩] ∧
    reject_fix s1 = [⟨s1, rejectReport⟩] := by
  refine ⟨?_, ?_, ?_, rfl⟩
  · simp [prompt_channels, h1, h2]
  · unfold approve_fix; rw [hok]
  · unfold approve_fix; rw [herr]

/-- Witness for C9 with two concrete approvers and concrete resolvers. -/
theorem C9_witness :
    ("U1" : String) ≠ "" ∧ ("U2" : String) ≠ "" ∧
    prompt_channels (some "U1") (some "U2") = ["U1", "U2"] ∧
    approve_fix lookupOkU9 "U1" "a@b.com" "d" =
      [⟨"U9", "d"⟩, ⟨"U1", successReport "a@b.com"⟩] ∧
    approve_fix lookupFail "U1" "a@b.com" "d" =
      [⟨"U1", failureReport "a@b.com" "users_not_found"⟩] ∧
    reject_fix "U1" = [⟨"U1", rejectReport⟩] := by
  have h := C9_outcomes_only_to_first_approver "U1" "U2" lookupOkU9 lookupFail
    "a@b.com" "d" "U9" "users_not_found" (by decide) (by decide) rfl rfl
  exact ⟨by decide, by decide, h.1, h.2.1, h.2.2.1, h.2.2.2⟩

/-- Claim C6, counterexample. On a record meeting the conditions of the claim (no
heuristic substring, normalized message under 10 characters), the composed
body is not "Hi <email>, Could not extract a valid error message.": the
fixed fallback text in the code says "valid Salesforce error message". -/
theorem C6_cex_fallback_text :
    (pyIn "already exists" (pyLower "xyz") = false ∧
     pyIn "must be" (pyLower "xyz") = false ∧
     pyIn "validation" (pyLower "xyz") = false ∧
     pyIn "not found" (pyLower "xyz") = false ∧
     (clean_text "xyz").length < 10) ∧
    draft_fix_message dummyOracle "u@v.com" "xyz" ≠
      "Hi u@v.com, Could not extract a valid error message." := by
  refine ⟨⟨by decide, by decide, by decide, by decide, by decide⟩, by decide⟩

/-- Claim C6, amended. For every record whose message matches none of the
heuristic substrings and whose normalized message is shorter than 10
characters, compose returns the fixed body
"Hi <email>, Could not extract a valid Salesforce error message." for every
summarizer whatsoever — the Summarizer is not consulted. -/
theorem C6_short_message_fallback (oracle : String → Except String String)
    (email message : String)
    (h1 : pyIn "already exists" (pyLower message) = false)
    (h2 : pyIn "must be" (pyLower message) = false)
    (h3 : pyIn "validation" (pyLower message) = false)
    (h4 : pyIn "not found" (pyLower message) = false)
    (h5 : (clean_text message).length < 10) :
    draft_fix_message oracle email message =
      "Hi " ++ email ++ ", " ++
        "Could not extract a valid Salesforce error message." := by
  unfold draft_fix_message call_openai_summary
  simp [h1, h2, h3, h4, h5]

/-- Witness for C6 (amended) at a concrete short message. -/
theorem C6_witness :
    ((clean_text "xyz").length < 10) ∧
    draft_fix_message dummyOracle "u@v.com" "xyz" =
      "Hi " ++ "u@v.com" ++ ", " ++
        "Could not extract a valid Salesforce error message." :=
  ⟨by decide, C6_short_message_fallback dummyOracle "u@v.com" "xyz"
    (by decide) (by decide) (by decide) (by decide) (by decide)⟩

/-- Claim C7. For every record reaching the Summarizer branch (no heuristic
substring matches and the normalized message is at least 10 characters), if
the Summarizer call fails with reason e, the suggestion is the fixed-format
text "Could not summarize error: " followed by e, and the composer returns a
plain string (the failure never propagates). -/
theorem C7_summarizer_failure (oracle : String → Except String String)
    (email message e : String)
    (h1 : pyIn "already exists" (pyLower message) = false)
    (h2 : pyIn "must be" (pyLower message) = false)
    (h3 : pyIn "validation" (pyLower message) = false)
    (h4 : pyIn "not found" (pyLower message) = false)
    (h5 : ¬(clean_text message).length < 10)
    (h6 : oracle (mkPrompt (clean_text message)) = Except.error e) :
    draft_fix_message oracle email message =
      "Hi " ++ email ++ ", " ++ ("Could not summarize error: " ++ e) := by
  unfold draft_fix_message call_openai_summary
  have hne : ¬(clean_text message = "" ∨ (clean_text message).length < 10) := by
    rintro (hc | hc)
    · apply h5; rw [hc]; decide
    · exact h5 hc
  simp [h1, h2, h3, h4, hne, h6]

/-- Witness for C7 at a concrete 12-character message with the concrete
always-failing summarizer. -/
theorem C7_witness :
    (¬(clean_text "qqqqqqqqqqqq").length < 10 ∧
      dummyOracle (mkPrompt (clean_text "qqqqqqqqqqqq")) =
        Except.error "summarizer unavailable") ∧
    draft_fix_message dummyOracle "u@v.com" "qqqqqqqqqqqq" =
      "Hi " ++ "u@v.com" ++ ", " ++
        ("Could not summarize error: " ++ "summarizer unavailable") :=
  ⟨⟨by decide, rfl⟩,
    C7_summarizer_failure dummyOracle "u@v.com" "qqqqqqqqqqqq"
      "summarizer unavailable" (by decide) (by decide) (by decide) (by decide)
      (by decide) rfl⟩
